import Mathlib

/-!
Shallow embedding of the customer-management page (`src/pages/index.tsx`).

The page holds five pieces of React state: `open`, `newCustomer` (the Draft),
`errors` (the ValidationErrors map), `submitError` and `isSubmitting`.  We
embed them as a `FormState` record and translate each handler
(`handleOpen`, `handleClose`, `handleChange`, `validate`, `handleSubmit`)
into a pure Lean function.  The asynchronous `handleSubmit` is split into the
synchronous prefix that runs up to the `fetch` call (`submitStart`) and the
continuation that runs when the create request settles (`submitFinish`);
the outcome of the request is a parameter of type `CreateOutcome`.  Emitted
network requests and `mutate()` (SWR revalidation) calls are returned as data
so theorems can count them.
-/

namespace CustomerPage

/-- ASCII letter, the character class of the JS regex `[A-Za-z]`. -/
def isAsciiLetter (c : Char) : Bool :=
  (decide ('A' ≤ c) && decide (c ≤ 'Z')) || (decide ('a' ≤ c) && decide (c ≤ 'z'))

/-- The test of the JS regex `/^[A-Za-z]+$/`: non-empty and every character
an ASCII letter. -/
def lettersOnly (s : String) : Bool :=
  !s.isEmpty && s.toList.all isAsciiLetter

/-- Membership in the JS regex class `\s` (ECMAScript WhiteSpace and
LineTerminator code points). -/
def jsWhitespace (c : Char) : Bool :=
  c == ' ' || c == '\t' || c == '\n' || c.val == 0x0b || c.val == 0x0c ||
  c == '\r' || c.val == 0xa0 || c.val == 0x1680 ||
  (decide (0x2000 ≤ c.val) && decide (c.val ≤ 0x200a)) ||
  c.val == 0x2028 || c.val == 0x2029 || c.val == 0x202f || c.val == 0x205f ||
  c.val == 0x3000 || c.val == 0xfeff

/-- The character class `[^\s@]` of the email regex. -/
def nonAt (c : Char) : Bool :=
  !jsWhitespace c && !(c == '@')

/-- Split a list at the first occurrence of `sep`: returns the part before
and the part after, or `none` when `sep` does not occur. -/
def splitFirst (sep : Char) : List Char → Option (List Char × List Char)
  | [] => none
  | c :: rest =>
    if c = sep then some ([], rest)
    else
      match splitFirst sep rest with
      | none => none
      | some (a, t) => some (c :: a, t)

/-- `true` iff the list contains a `'.'` that is not its last element. -/
def dotNotLast : List Char → Bool
  | [] => false
  | [_] => false
  | c :: rest => c == '.' || dotNotLast rest

/-- `true` iff the list contains a `'.'` that is neither its first nor its
last element. -/
def hasInteriorDot : List Char → Bool
  | [] => false
  | _ :: rest => dotNotLast rest

/-- The test of the JS regex `/^[^\s@]+@[^\s@]+\.[^\s@]+$/`.  Because the
class `[^\s@]` excludes `'@'`, a match forces the split at the unique `'@'`;
the part after it must be all `[^\s@]` characters and contain an interior
`'.'` (so that both `[^\s@]+` groups around the dot are non-empty). -/
def emailTest (s : String) : Bool :=
  match splitFirst '@' s.toList with
  | none => false
  | some (a, t) => !a.isEmpty && a.all nonAt && t.all nonAt && hasInteriorDot t

/-- The `firstName` branch of `validate`. -/
def firstNameError (s : String) : Option String :=
  if s = "" then some "First name is required"
  else if !lettersOnly s then some "First name should contain only letters"
  else none

/-- The `lastName` branch of `validate`. -/
def lastNameError (s : String) : Option String :=
  if s = "" then some "Last name is required"
  else if !lettersOnly s then some "Last name should contain only letters"
  else none

/-- The `email` branch of `validate`. -/
def emailError (s : String) : Option String :=
  if s = "" then some "Email is required"
  else if !emailTest s then some "Email should be valid (e.g., user@example.com)"
  else none

/-- The four form fields wired to `handleChange` in the view. -/
inductive Field where
  | firstName
  | lastName
  | email
  | businessName
deriving DecidableEq, Repr

/-- The Draft (`newCustomer` state).  The controller initialises every field
to the empty string, so all four are plain strings. -/
structure Draft where
  firstName : String
  lastName : String
  email : String
  businessName : String
deriving DecidableEq, Repr

/-- The all-empty Draft used by the initial state, `handleClose` and the
post-submit reset. -/
def emptyDraft : Draft :=
  { firstName := "", lastName := "", email := "", businessName := "" }

def Draft.get (d : Draft) : Field → String
  | .firstName => d.firstName
  | .lastName => d.lastName
  | .email => d.email
  | .businessName => d.businessName

def Draft.set (d : Draft) : Field → String → Draft
  | .firstName, v => { d with firstName := v }
  | .lastName, v => { d with lastName := v }
  | .email, v => { d with email := v }
  | .businessName, v => { d with businessName := v }

/-- The ValidationErrors map (`errors` state, a `Record<string, string>`).
`none` models an absent key; `some ""` models a key set to the empty string,
as `handleChange` does.  Both are falsy in every read the code performs. -/
structure Errors where
  firstName : Option String
  lastName : Option String
  email : Option String
  businessName : Option String
deriving DecidableEq, Repr

/-- The empty error map `{}`. -/
def emptyErrors : Errors :=
  { firstName := none, lastName := none, email := none, businessName := none }

def Errors.get (e : Errors) : Field → Option String
  | .firstName => e.firstName
  | .lastName => e.lastName
  | .email => e.email
  | .businessName => e.businessName

def Errors.set (e : Errors) : Field → Option String → Errors
  | .firstName, v => { e with firstName := v }
  | .lastName, v => { e with lastName := v }
  | .email, v => { e with email := v }
  | .businessName, v => { e with businessName := v }

/-- JS truthiness of an error-map lookup: `errors[name]` is truthy exactly
when the key is present with a non-empty string. -/
def truthy : Option String → Bool
  | none => false
  | some m => !(m == "")

/-- The fresh `newErrors` object built by `validate` from the current Draft:
each failing field is present with its message, each passing field is absent,
and `businessName` is never inspected. -/
def validateErrors (d : Draft) : Errors :=
  { firstName := firstNameError d.firstName
    lastName := lastNameError d.lastName
    email := emailError d.email
    businessName := none }

/-- `Object.keys(newErrors).length === 0` on the fresh object. -/
def errorsEmpty (e : Errors) : Bool :=
  e.firstName.isNone && e.lastName.isNone && e.email.isNone && e.businessName.isNone

/-- The controller state: the five `useState` cells of the page.  `isOpen`
embeds the state variable `open` (a Lean keyword). -/
structure FormState where
  isOpen : Bool
  newCustomer : Draft
  errors : Errors
  submitError : Option String
  isSubmitting : Bool
deriving DecidableEq, Repr

/-- `handleOpen`: `() => setOpen(true)`.  Nothing else is touched. -/
def handleOpen (s : FormState) : FormState :=
  { s with isOpen := true }

/-- `handleClose`: closes the dialog, resets the Draft to all-empty strings,
clears the error map, clears the submit-level error.  `isSubmitting` is not
touched. -/
def handleClose (s : FormState) : FormState :=
  { s with isOpen := false
           newCustomer := emptyDraft
           errors := emptyErrors
           submitError := none }

/-- `handleChange` for a change event on field `f` with value `v`: writes the
field into the Draft, and if `errors[name]` is truthy sets that entry to the
empty string.  No other state is read or written. -/
def handleChange (s : FormState) (f : Field) (v : String) : FormState :=
  let s1 := { s with newCustomer := s.newCustomer.set f v }
  if truthy (s.errors.get f) then
    { s1 with errors := s1.errors.set f (some "") }
  else s1

/-- `validate`: builds the fresh error object from the Draft, stores it as
the whole `errors` state, and returns whether it is empty. -/
def validate (s : FormState) : Bool × FormState :=
  let newErrors := validateErrors s.newCustomer
  (errorsEmpty newErrors, { s with errors := newErrors })

/-- How the create request settles, as seen by `handleSubmit`'s `try/catch`:
`success` is `response.ok`; `httpError m` is a non-ok response whose parsed
JSON body has `m` as its `message` field (`none` = absent, `some ""` =
present but empty — both falsy); `thrown isError m` is a rejected `fetch` or
`json()` whose thrown value has message `m` when it `instanceof Error`
(`isError = true`), and is not an `Error` otherwise. -/
inductive CreateOutcome where
  | success
  | httpError (message : Option String)
  | thrown (isError : Bool) (message : String)
deriving DecidableEq, Repr

/-- JS `x || fallback` on the optional `message` field of an error body. -/
def messageOrFallback : Option String → String → String
  | none, fallback => fallback
  | some m, fallback => if m = "" then fallback else m

/-- The synchronous prefix of `handleSubmit`, up to the `fetch` call: run
`validate` (which stores the fresh error map); if it returned `false`,
return with no request issued; otherwise set `isSubmitting` to `true`, clear
the submit-level error, and issue the create request whose JSON body is the
current Draft (returned as `some draft`). -/
def submitStart (s : FormState) : FormState × Option Draft :=
  let v := validate s
  if v.1 then
    ({ v.2 with isSubmitting := true, submitError := none }, some s.newCustomer)
  else
    (v.2, none)

/-- The continuation of `handleSubmit` once the create request settles,
applied to whatever the controller state is at that moment.  Returns the new
state and the number of `mutate()` (revalidation) calls made.  On `success`:
`mutate(); handleClose();` then the `finally` clears `isSubmitting`.  On a
non-ok response: the code throws `new Error(errorData.message || 'Failed to
create customer')`, caught as an `Error`, so `submitError` becomes its
message; `finally` clears `isSubmitting`; nothing else changes.  On a thrown
failure: `submitError` is the error's message when it is an `Error`, else
the generic fallback. -/
def submitFinish (s : FormState) (o : CreateOutcome) : FormState × Nat :=
  match o with
  | .success => ({ handleClose s with isSubmitting := false }, 1)
  | .httpError m =>
    ({ s with submitError := some (messageOrFallback m "Failed to create customer")
              isSubmitting := false }, 0)
  | .thrown isError m =>
    ({ s with submitError := some (if isError then m else "An unknown error occurred")
              isSubmitting := false }, 0)

/-- The whole `handleSubmit` for the run in which no other handler interleaves
between the `fetch` and its settlement: returns the final state, the create
request body if one was issued, and the number of revalidation calls. -/
def handleSubmit (s : FormState) (o : CreateOutcome) : FormState × Option Draft × Nat :=
  match submitStart s with
  | (s1, none) => (s1, none, 0)
  | (s1, some req) =>
    let r := submitFinish s1 o
    (r.1, some req, r.2)

/-- The submit control as rendered: the submit `Button` carries
`disabled={isSubmitting}`, so the view never invokes `handleSubmit` while a
submission is in flight. -/
def viewSubmit (s : FormState) (o : CreateOutcome) : FormState × Option Draft × Nat :=
  if s.isSubmitting then (s, none, 0) else handleSubmit s o

/-! ### Concrete states used to exercise the theorems -/

/-- A state with a Draft that passes validation, dialog open. -/
def validState : FormState :=
  { isOpen := true
    newCustomer := { firstName := "Jane", lastName := "Doe",
                     email := "jane@doe.com", businessName := "" }
    errors := emptyErrors
    submitError := none
    isSubmitting := false }

/-- `validState` with a create request already in flight. -/
def submittingState : FormState :=
  { validState with isSubmitting := true }

/-- A state whose Draft fails validation (empty first name). -/
def invalidState : FormState :=
  { validState with
      newCustomer := { firstName := "", lastName := "Doe",
                       email := "jane@doe.com", businessName := "" } }

/-- A state carrying a field-level error on `firstName`. -/
def erroredState : FormState :=
  { validState with
      newCustomer := emptyDraft
      errors := { emptyErrors with firstName := some "First name is required" } }

/-! ### Helper lemmas -/

theorem draft_get_set_self (d : Draft) (f : Field) (v : String) :
    (d.set f v).get f = v := by
  cases f <;> rfl

theorem draft_get_set_of_ne (d : Draft) (f g : Field) (v : String) (h : g ≠ f) :
    (d.set f v).get g = d.get g := by
  cases f <;> cases g <;> first | rfl | exact absurd rfl h

theorem errors_get_set_self (e : Errors) (f : Field) (v : Option String) :
    (e.set f v).get f = v := by
  cases f <;> rfl

theorem errors_get_set_of_ne (e : Errors) (f g : Field) (v : Option String) (h : g ≠ f) :
    (e.set f v).get g = e.get g := by
  cases f <;> cases g <;> first | rfl | exact absurd rfl h

theorem errorsEmpty_iff (e : Errors) :
    errorsEmpty e = true ↔ ∀ f, e.get f = none := by
  constructor
  · intro h f
    simp only [errorsEmpty, Bool.and_eq_true, Option.isNone_iff_eq_none] at h
    obtain ⟨⟨⟨h1, h2⟩, h3⟩, h4⟩ := h
    cases f <;> simp [Errors.get, h1, h2, h3, h4]
  · intro h
    simp only [errorsEmpty, Bool.and_eq_true, Option.isNone_iff_eq_none]
    exact ⟨⟨⟨h .firstName, h .lastName⟩, h .email⟩, h .businessName⟩

theorem nonAt_at : nonAt '@' = false := by decide

theorem nonAt_dot : nonAt '.' = true := by decide

theorem ne_at_of_nonAt {c : Char} (h : nonAt c = true) : c ≠ '@' := by
  intro he
  rw [he] at h
  exact absurd h (by decide)

theorem splitFirst_eq_some (sep : Char) (l : List Char) :
    ∀ a t, splitFirst sep l = some (a, t) → l = a ++ sep :: t ∧ sep ∉ a := by
  induction l with
  | nil => intro a t h; simp [splitFirst] at h
  | cons c rest ih =>
    intro a t h
    by_cases hc : c = sep
    · simp only [splitFirst, if_pos hc, Option.some.injEq, Prod.mk.injEq] at h
      obtain ⟨ha, ht⟩ := h
      subst ha; subst ht; subst hc
      exact ⟨rfl, List.not_mem_nil _⟩
    · simp only [splitFirst, if_neg hc] at h
      cases hr : splitFirst sep rest with
      | none => rw [hr] at h; exact absurd h (by simp)
      | some p =>
        obtain ⟨a1, t1⟩ := p
        rw [hr] at h
        simp only [Option.some.injEq, Prod.mk.injEq] at h
        obtain ⟨ha, ht⟩ := h
        obtain ⟨hl, hn⟩ := ih a1 t1 hr
        subst ht
        rw [← ha, hl]
        refine ⟨rfl, ?_⟩
        intro hmem
        rcases List.mem_cons.mp hmem with he | hm
        · exact hc he.symm
        · exact hn hm

theorem splitFirst_append (sep : Char) (a t : List Char) (ha : sep ∉ a) :
    splitFirst sep (a ++ sep :: t) = some (a, t) := by
  induction a with
  | nil => simp [splitFirst]
  | cons c a1 ih =>
    have hc : c ≠ sep := fun he => ha (he ▸ List.mem_cons_self c a1)
    have ha1 : sep ∉ a1 := fun hm => ha (List.mem_cons_of_mem c hm)
    rw [List.cons_append]
    unfold splitFirst
    rw [if_neg hc, ih ha1]

theorem dotNotLast_iff (l : List Char) :
    dotNotLast l = true ↔ ∃ b c, l = b ++ '.' :: c ∧ c ≠ [] := by
  induction l with
  | nil =>
    simp only [dotNotLast]
    constructor
    · intro h; exact absurd h (by decide)
    · rintro ⟨b, c, hbc, _⟩
      exact absurd hbc (by simp)
  | cons x rest ih =>
    cases rest with
    | nil =>
      simp only [dotNotLast]
      constructor
      · intro h; exact absurd h (by decide)
      · rintro ⟨b, c, hbc, hc⟩
        cases b with
        | nil =>
          simp only [List.nil_append, List.cons.injEq] at hbc
          exact (hc hbc.2.symm).elim
        | cons y b1 =>
          simp only [List.cons_append, List.cons.injEq] at hbc
          exact absurd hbc.2 (by simp)
    | cons y rest1 =>
      constructor
      · intro h
        simp only [dotNotLast, Bool.or_eq_true, beq_iff_eq] at h
        rcases h with hx | hr
        · exact ⟨[], y :: rest1, by simp [hx], by simp⟩
        · obtain ⟨b, c, hbc, hc⟩ := ih.mp hr
          exact ⟨x :: b, c, by rw [List.cons_append, hbc], hc⟩
      · rintro ⟨b, c, hbc, hc⟩
        simp only [dotNotLast, Bool.or_eq_true, beq_iff_eq]
        cases b with
        | nil =>
          simp only [List.nil_append, List.cons.injEq] at hbc
          exact Or.inl hbc.1
        | cons z b1 =>
          simp only [List.cons_append, List.cons.injEq] at hbc
          exact Or.inr (ih.mpr ⟨b1, c, hbc.2, hc⟩)

theorem hasInteriorDot_iff (t : List Char) :
    hasInteriorDot t = true ↔ ∃ b c, t = b ++ '.' :: c ∧ b ≠ [] ∧ c ≠ [] := by
  cases t with
  | nil =>
    simp only [hasInteriorDot]
    constructor
    · intro h; exact absurd h (by decide)
    · rintro ⟨b, c, hbc, _, _⟩
      exact absurd hbc (by simp)
  | cons x rest =>
    simp only [hasInteriorDot]
    rw [dotNotLast_iff]
    constructor
    · rintro ⟨b, c, hbc, hc⟩
      exact ⟨x :: b, c, by rw [List.cons_append, hbc], by simp, hc⟩
    · rintro ⟨b, c, hbc, hb, hc⟩
      cases b with
      | nil => exact absurd rfl hb
      | cons z b1 =>
        simp only [List.cons_append, List.cons.injEq] at hbc
        exact ⟨b1, c, hbc.2, hc⟩

/-- The email shape as the spec words it: one or more non-whitespace/non-@
characters, `@`, one or more non-whitespace/non-@ characters, a literal dot,
one or more non-whitespace/non-@ characters.  Stated over the character list
of the string, to be compared against `emailTest`, the embedding of the
regex itself. -/
def emailSpecShape (s : String) : Prop :=
  ∃ a b c : List Char,
    s.toList = a ++ '@' :: (b ++ '.' :: c) ∧
    a ≠ [] ∧ b ≠ [] ∧ c ≠ [] ∧
    (∀ x ∈ a, nonAt x = true) ∧ (∀ x ∈ b, nonAt x = true) ∧
    (∀ x ∈ c, nonAt x = true)

theorem emailTest_iff_shape (s : String) :
    emailTest s = true ↔ emailSpecShape s := by
  rcases hsp : splitFirst '@' s.toList with _ | ⟨a, t⟩
  · have hfalse : emailTest s = false := by
      unfold emailTest; rw [hsp]
    constructor
    · intro h
      rw [hfalse] at h
      exact absurd h (by decide)
    · rintro ⟨a, b, c, heq, _, _, _, hna, _, _⟩
      have hnA : '@' ∉ a := fun hm => ne_at_of_nonAt (hna _ hm) rfl
      have h2 := splitFirst_append '@' a (b ++ '.' :: c) hnA
      rw [heq, h2] at hsp
      exact absurd hsp (by simp)
  · have hval : emailTest s =
        (!a.isEmpty && a.all nonAt && t.all nonAt && hasInteriorDot t) := by
      unfold emailTest; rw [hsp]
    obtain ⟨heq, _⟩ := splitFirst_eq_some '@' s.toList a t hsp
    rw [hval]
    constructor
    · intro h
      simp only [Bool.and_eq_true, List.all_eq_true] at h
      obtain ⟨⟨⟨hne, hna⟩, hnt⟩, hdot⟩ := h
      obtain ⟨b, c, hbc, hb, hc⟩ := (hasInteriorDot_iff t).mp hdot
      refine ⟨a, b, c, by rw [heq, hbc], ?_, hb, hc, hna, ?_, ?_⟩
      · intro h0
        rw [h0] at hne
        exact absurd hne (by decide)
      · intro x hx
        exact hnt x (hbc ▸ List.mem_append_left _ hx)
      · intro x hx
        exact hnt x (hbc ▸ List.mem_append_right _ (List.mem_cons_of_mem _ hx))
    · rintro ⟨a1, b, c, heq1, ha1, hb, hc, hna, hnb, hnc⟩
      have hnA : '@' ∉ a1 := fun hm => ne_at_of_nonAt (hna _ hm) rfl
      have h2 := splitFirst_append '@' a1 (b ++ '.' :: c) hnA
      rw [heq1, h2] at hsp
      simp only [Option.some.injEq, Prod.mk.injEq] at hsp
      obtain ⟨haa, htt⟩ := hsp
      subst haa; subst htt
      simp only [Bool.and_eq_true, List.all_eq_true]
      refine ⟨⟨⟨?_, hna⟩, ?_⟩, ?_⟩
      · cases a1 with
        | nil => exact absurd rfl ha1
        | cons z zs => rfl
      · intro x hx
        rcases List.mem_append.mp hx with h1 | h2m
        · exact hnb x h1
        · rcases List.mem_cons.mp h2m with h3 | h4
          · rw [h3]; exact nonAt_dot
          · exact hnc x h4
      · exact (hasInteriorDot_iff _).mpr ⟨b, c, rfl, hb, hc⟩

theorem lettersOnly_eq_false_iff (s : String) (hs : s ≠ "") :
    lettersOnly s = false ↔ ∃ c ∈ s.toList, isAsciiLetter c = false := by
  have hie : s.isEmpty = false := by
    cases hi : s.isEmpty with
    | false => rfl
    | true => exact absurd ((String.isEmpty_iff s).mp hi) hs
  rw [lettersOnly, hie]
  simp only [Bool.not_false, Bool.true_and]
  constructor
  · intro h
    rcases List.all_eq_false.mp h with ⟨c, hc, hcf⟩
    exact ⟨c, hc, Bool.eq_false_iff.mpr hcf⟩
  · intro ⟨c, hc, hcf⟩
    exact List.all_eq_false.mpr ⟨c, hc, Bool.eq_false_iff.mp hcf⟩

theorem submitStart_of_valid (s : FormState) (hv : (validate s).1 = true) :
    submitStart s =
      ({ s with errors := validateErrors s.newCustomer
                isSubmitting := true
                submitError := none }, some s.newCustomer) := by
  have hv2 : errorsEmpty (validateErrors s.newCustomer) = true := hv
  simp [submitStart, validate, hv2]

theorem submitStart_of_invalid (s : FormState) (hv : (validate s).1 = false) :
    submitStart s = ({ s with errors := validateErrors s.newCustomer }, none) := by
  have hv2 : errorsEmpty (validateErrors s.newCustomer) = false := hv
  simp [submitStart, validate, hv2]

theorem handleChange_truthy (s : FormState) (f : Field) (v : String)
    (ht : truthy (s.errors.get f) = true) :
    handleChange s f v =
      { s with newCustomer := s.newCustomer.set f v
               errors := s.errors.set f (some "") } := by
  simp [handleChange, ht]

theorem handleChange_falsy (s : FormState) (f : Field) (v : String)
    (ht : truthy (s.errors.get f) = false) :
    handleChange s f v = { s with newCustomer := s.newCustomer.set f v } := by
  simp [handleChange, ht]

/-! ### Claim theorems -/

/-- C1 (counterexample): the claim says a second `submit()` call while
already Submitting is a no-op that issues no second create request.  In
`submittingState` (valid draft, `isSubmitting = true`), `submitStart` does
issue a create request, and a full `handleSubmit` run changes the state. -/
theorem C1_counterexample :
    submittingState.isSubmitting = true ∧
    (submitStart submittingState).2 = some submittingState.newCustomer ∧
    handleSubmit submittingState (.httpError (some "boom")) ≠
      (submittingState, none, 0) := by
  decide

/-- C1 (amended): while a submission is in flight, the view's disabled
submit control is what prevents a second submission (`viewSubmit` is a
no-op with no request and no state change), while the controller itself
performs no in-flight check: a direct second `submit()` call with a valid
draft issues a second create request. -/
theorem C1_reentrancy_view_only (s : FormState) (o : CreateOutcome)
    (h : s.isSubmitting = true) :
    viewSubmit s o = (s, none, 0) ∧
    ((validate s).1 = true → (submitStart s).2 = some s.newCustomer) := by
  refine ⟨by simp [viewSubmit, h], fun hv => by rw [submitStart_of_valid s hv]⟩

theorem C1_reentrancy_view_only_witness :
    viewSubmit submittingState .success = (submittingState, none, 0) ∧
    (submitStart submittingState).2 = some submittingState.newCustomer :=
  ⟨(C1_reentrancy_view_only submittingState .success (by decide)).1,
   (C1_reentrancy_view_only submittingState .success (by decide)).2 (by decide)⟩

/-- C2: `validate` returns `true` iff no field of the resulting map holds an
error; it replaces the whole map with the result of checking the current
Draft alone (so a previously failing, now fixed field is absent, whatever
the old map held), and `businessName` never appears in the map. -/
theorem C2_validate_contract (s : FormState) :
    ((validate s).1 = true ↔ ∀ f, (validate s).2.errors.get f = none) ∧
    (validate s).2.errors = validateErrors s.newCustomer ∧
    (validate s).2.errors.businessName = none ∧
    (∀ s2 : FormState, s2.newCustomer = s.newCustomer →
      (validate s2).2.errors = (validate s).2.errors) ∧
    (validate s).2.newCustomer = s.newCustomer ∧
    (validate s).2.isOpen = s.isOpen ∧
    (validate s).2.submitError = s.submitError ∧
    (validate s).2.isSubmitting = s.isSubmitting := by
  refine ⟨errorsEmpty_iff _, rfl, rfl, ?_, rfl, rfl, rfl, rfl⟩
  intro s2 h2
  simp [validate, h2]

theorem C2_validate_contract_witness :
    (validate validState).2.errors = (validate submittingState).2.errors :=
  (C2_validate_contract submittingState).2.2.2.1 validState (by decide)

/-- C3: for `firstName` and `lastName`, the empty string fails with the
"required" message (so that message, not the format one, is produced); a
non-empty string fails with the "only letters" message exactly when some
character is outside `A–Z`/`a–z`; and every non-empty all-letter string
passes. -/
theorem C3_name_field_validation :
    firstNameError "" = some "First name is required" ∧
    lastNameError "" = some "Last name is required" ∧
    (∀ s : String, s ≠ "" →
      (firstNameError s = some "First name should contain only letters" ↔
        ∃ c ∈ s.toList, isAsciiLetter c = false)) ∧
    (∀ s : String, s ≠ "" →
      (lastNameError s = some "Last name should contain only letters" ↔
        ∃ c ∈ s.toList, isAsciiLetter c = false)) ∧
    (∀ s : String, s ≠ "" → (∀ c ∈ s.toList, isAsciiLetter c = true) →
      firstNameError s = none ∧ lastNameError s = none) := by
  have hletters : ∀ s : String, (∀ c ∈ s.toList, isAsciiLetter c = true) →
      s ≠ "" → lettersOnly s = true := by
    intro s hall hs
    cases hl : lettersOnly s with
    | true => rfl
    | false =>
      obtain ⟨c, hc, hcf⟩ := (lettersOnly_eq_false_iff s hs).mp hl
      rw [hall c hc] at hcf
      exact absurd hcf (by decide)
  refine ⟨by decide, by decide, ?_, ?_, ?_⟩
  · intro s hs
    rw [firstNameError, if_neg hs]
    constructor
    · intro h
      cases hl : lettersOnly s with
      | true => rw [hl] at h; exact absurd h (by simp)
      | false => exact (lettersOnly_eq_false_iff s hs).mp hl
    · intro h
      rw [(lettersOnly_eq_false_iff s hs).mpr h]
      rfl
  · intro s hs
    rw [lastNameError, if_neg hs]
    constructor
    · intro h
      cases hl : lettersOnly s with
      | true => rw [hl] at h; exact absurd h (by simp)
      | false => exact (lettersOnly_eq_false_iff s hs).mp hl
    · intro h
      rw [(lettersOnly_eq_false_iff s hs).mpr h]
      rfl
  · intro s hs hall
    constructor
    · rw [firstNameError, if_neg hs, hletters s hall hs]
      rfl
    · rw [lastNameError, if_neg hs, hletters s hall hs]
      rfl

theorem C3_name_field_validation_witness :
    firstNameError "Jan3" = some "First name should contain only letters" ∧
    lastNameError "Doe" = none :=
  ⟨(C3_name_field_validation.2.2.1 "Jan3" (by decide)).mpr
      ⟨'3', by decide, by decide⟩,
   (C3_name_field_validation.2.2.2.2 "Doe" (by decide) (by decide)).2⟩

/-- C4: `emailTest` (the regex `^[^\s@]+@[^\s@]+\.[^\s@]+$`) succeeds exactly
on strings of the shape the spec describes; consequently a non-empty string
without exactly one `@` followed (not immediately at either end) by at least
one `.` gets the "valid email" message; the empty string gets the "required"
message; and the spec's three concrete examples behave as stated. -/
theorem C4_email_field_validation :
    (∀ s : String, emailTest s = true ↔ emailSpecShape s) ∧
    (∀ s : String, s ≠ "" →
      (¬ ∃ a t : List Char,
          s.toList = a ++ '@' :: t ∧ '@' ∉ a ∧ '@' ∉ t ∧ '.' ∈ t) →
      emailError s = some "Email should be valid (e.g., user@example.com)") ∧
    emailError "" = some "Email is required" ∧
    emailError "user@example.com" = none ∧
    emailError "user@example" = some "Email should be valid (e.g., user@example.com)" ∧
    emailError "user example.com" = some "Email should be valid (e.g., user@example.com)" := by
  refine ⟨emailTest_iff_shape, ?_, by decide, by decide, by decide, by decide⟩
  intro s hs hno
  cases he : emailTest s with
  | false =>
    rw [emailError, if_neg hs, he]
    rfl
  | true =>
    obtain ⟨a, b, c, heq, _, _, _, hna, hnb, hnc⟩ :=
      (emailTest_iff_shape s).mp he
    exfalso
    apply hno
    refine ⟨a, b ++ '.' :: c, heq,
      fun hm => ne_at_of_nonAt (hna _ hm) rfl, ?_,
      List.mem_append_right _ (List.mem_cons_self _ _)⟩
    intro hm
    rcases List.mem_append.mp hm with h1 | h2
    · exact ne_at_of_nonAt (hnb _ h1) rfl
    · rcases List.mem_cons.mp h2 with h3 | h4
      · exact absurd h3 (by decide)
      · exact ne_at_of_nonAt (hnc _ h4) rfl

theorem C4_email_field_validation_witness :
    emailError "ab.c" = some "Email should be valid (e.g., user@example.com)" :=
  C4_email_field_validation.2.1 "ab.c" (by decide)
    (fun ⟨a, t, heq, _, _, _⟩ => by
      have hm : '@' ∈ "ab.c".toList := by
        rw [heq]
        exact List.mem_append_right a (List.mem_cons_self _ _)
      revert hm
      decide)

/-- C5: when the create request of a validated submit resolves with a
non-success HTTP response, the submit-level error becomes the body's
`message` field when present (else the generic fallback), the dialog's open
flag is untouched, the controller is back to submit-enabled, the Draft is
unchanged, the field-error map stays all-clear, and no revalidation runs;
in particular the body `{message: "Email already exists"}` surfaces exactly
as "Email already exists". -/
theorem C5_create_http_error (s : FormState) (m : Option String)
    (h : (submitStart s).2 ≠ none) :
    (submitFinish (submitStart s).1 (.httpError m)).1.isOpen = s.isOpen ∧
    (submitFinish (submitStart s).1 (.httpError m)).1.isSubmitting = false ∧
    (submitFinish (submitStart s).1 (.httpError m)).1.newCustomer = s.newCustomer ∧
    (∀ f, (submitFinish (submitStart s).1 (.httpError m)).1.errors.get f = none) ∧
    (submitFinish (submitStart s).1 (.httpError m)).1.submitError =
      some (messageOrFallback m "Failed to create customer") ∧
    (submitFinish (submitStart s).1
        (.httpError (some "Email already exists"))).1.submitError =
      some "Email already exists" ∧
    (submitFinish (submitStart s).1 (.httpError m)).2 = 0 := by
  have hv : (validate s).1 = true := by
    cases hv0 : (validate s).1 with
    | true => rfl
    | false =>
      rw [submitStart_of_invalid s hv0] at h
      exact absurd rfl h
  have hv2 : errorsEmpty (validateErrors s.newCustomer) = true := hv
  rw [submitStart_of_valid s hv]
  exact ⟨rfl, rfl, rfl, fun f => (errorsEmpty_iff _).mp hv2 f, rfl, rfl, rfl⟩

theorem C5_create_http_error_witness :
    (submitFinish (submitStart validState).1
        (.httpError (some "Email already exists"))).1.submitError =
      some "Email already exists" :=
  (C5_create_http_error validState (some "Email already exists")
    (by decide)).2.2.2.2.2.1

/-- C6: when the create request of a validated submit succeeds, exactly one
revalidation is triggered, the issued request body is the Draft itself, and
the controller ends Closed with the Draft reset to all-empty strings, the
error map empty and the submit-level error clear — the same state `close()`
would produce (given submit's `finally` also clears the in-flight flag). -/
theorem C6_create_success_reset (s : FormState)
    (h : (submitStart s).2 ≠ none) :
    (submitFinish (submitStart s).1 .success).2 = 1 ∧
    (submitStart s).2 = some s.newCustomer ∧
    (submitFinish (submitStart s).1 .success).1.isOpen = false ∧
    (submitFinish (submitStart s).1 .success).1.newCustomer = emptyDraft ∧
    (submitFinish (submitStart s).1 .success).1.errors = emptyErrors ∧
    (submitFinish (submitStart s).1 .success).1.submitError = none ∧
    (submitFinish (submitStart s).1 .success).1 =
      { handleClose s with isSubmitting := false } ∧
    (s.isSubmitting = false →
      (submitFinish (submitStart s).1 .success).1 = handleClose s) := by
  have hv : (validate s).1 = true := by
    cases hv0 : (validate s).1 with
    | true => rfl
    | false =>
      rw [submitStart_of_invalid s hv0] at h
      exact absurd rfl h
  rw [submitStart_of_valid s hv]
  refine ⟨rfl, rfl, rfl, rfl, rfl, rfl, by simp [submitFinish, handleClose], ?_⟩
  intro hsub
  simp [submitFinish, handleClose, hsub]

theorem C6_create_success_reset_witness :
    (submitFinish (submitStart validState).1 .success).2 = 1 ∧
    (submitFinish (submitStart validState).1 .success).1 = handleClose validState :=
  ⟨(C6_create_success_reset validState (by decide)).1,
   (C6_create_success_reset validState (by decide)).2.2.2.2.2.2.2 (by decide)⟩

/-- C7: when `validate` fails, `submit()` stops before the network step: no
create request is issued, the dialog flag, Draft, submit-level error and
in-flight flag are unchanged, and the error map holds exactly the fresh
validation result; the full run performs no revalidation either. -/
theorem C7_invalid_submit_noop (s : FormState) (h : (validate s).1 = false) :
    (submitStart s).2 = none ∧
    (submitStart s).1.isOpen = s.isOpen ∧
    (submitStart s).1.newCustomer = s.newCustomer ∧
    (submitStart s).1.submitError = s.submitError ∧
    (submitStart s).1.isSubmitting = s.isSubmitting ∧
    (submitStart s).1.errors = validateErrors s.newCustomer ∧
    (∀ o, handleSubmit s o =
      ({ s with errors := validateErrors s.newCustomer }, none, 0)) := by
  rw [submitStart_of_invalid s h]
  refine ⟨rfl, rfl, rfl, rfl, rfl, rfl, ?_⟩
  intro o
  unfold handleSubmit
  rw [submitStart_of_invalid s h]

theorem C7_invalid_submit_noop_witness :
    (submitStart invalidState).2 = none :=
  (C7_invalid_submit_noop invalidState (by decide)).1

/-- C8: `close()` always lands in the same shape — dialog closed, Draft
all-empty, error map empty, submit-level error cleared — from any state,
and running it twice equals running it once. -/
theorem C8_close_idempotent (s : FormState) :
    (handleClose s).isOpen = false ∧
    (handleClose s).newCustomer = emptyDraft ∧
    (handleClose s).errors = emptyErrors ∧
    (handleClose s).submitError = none ∧
    handleClose (handleClose s) = handleClose s := by
  exact ⟨rfl, rfl, rfl, rfl, rfl⟩

/-- C9: a change event on field `f` writes only field `f` of the Draft; if
`f` currently carries an error its entry alone is overwritten with the empty
string (valid, per the map's convention), a non-erroring `f` leaves the map
untouched, every other field's entry is preserved, no field gains an error,
and no other state cell is touched — so no full re-validation happens. -/
theorem C9_change_frame (s : FormState) (f : Field) (v : String) :
    (handleChange s f v).newCustomer.get f = v ∧
    (∀ g, g ≠ f → (handleChange s f v).newCustomer.get g = s.newCustomer.get g) ∧
    (truthy (s.errors.get f) = true → (handleChange s f v).errors.get f = some "") ∧
    (truthy (s.errors.get f) = false → (handleChange s f v).errors = s.errors) ∧
    (∀ g, g ≠ f → (handleChange s f v).errors.get g = s.errors.get g) ∧
    (∀ g, truthy ((handleChange s f v).errors.get g) = true →
      truthy (s.errors.get g) = true) ∧
    (handleChange s f v).isOpen = s.isOpen ∧
    (handleChange s f v).submitError = s.submitError ∧
    (handleChange s f v).isSubmitting = s.isSubmitting := by
  cases ht : truthy (s.errors.get f) with
  | true =>
    rw [handleChange_truthy s f v ht]
    refine ⟨draft_get_set_self _ _ _,
      fun g hg => draft_get_set_of_ne _ _ _ _ hg,
      fun _ => errors_get_set_self _ _ _,
      ?_,
      fun g hg => errors_get_set_of_ne _ _ _ _ hg,
      ?_, rfl, rfl, rfl⟩
    · intro hf
      exact absurd hf (by decide)
    · intro g hg
      by_cases hgf : g = f
      · subst hgf
        rw [errors_get_set_self] at hg
        exact absurd hg (by decide)
      · rw [errors_get_set_of_ne _ _ _ _ hgf] at hg
        exact hg
  | false =>
    rw [handleChange_falsy s f v ht]
    refine ⟨draft_get_set_self _ _ _,
      fun g hg => draft_get_set_of_ne _ _ _ _ hg,
      ?_,
      fun _ => rfl,
      fun g _ => rfl,
      fun g hg => hg,
      rfl, rfl, rfl⟩
    intro hf
    exact absurd hf (by decide)

theorem C9_change_frame_witness :
    (handleChange erroredState .firstName "J").errors.get .firstName = some "" ∧
    (handleChange erroredState .firstName "J").newCustomer.get .lastName =
      erroredState.newCustomer.get .lastName :=
  ⟨(C9_change_frame erroredState .firstName "J").2.2.1 (by decide),
   (C9_change_frame erroredState .firstName "J").2.1 .lastName (by decide)⟩

/-- C10: if `close()` runs while a validated create request is in flight and
that request then fails, the failure continuation still writes the
submit-level error into the now-Closed state (for both a non-success
response and a thrown error), so the clear performed by `close()` is not
durable; reopening via `open()` keeps the stale error visible, since
`open()` only flips the dialog flag. -/
theorem C10_stale_submit_error (s : FormState) (m : Option String)
    (_h : (submitStart s).2 ≠ none) :
    (handleClose (submitStart s).1).submitError = none ∧
    (handleClose (submitStart s).1).isOpen = false ∧
    (submitFinish (handleClose (submitStart s).1) (.httpError m)).1.isOpen = false ∧
    (submitFinish (handleClose (submitStart s).1) (.httpError m)).1.submitError =
      some (messageOrFallback m "Failed to create customer") ∧
    (∀ isErr msg,
      (submitFinish (handleClose (submitStart s).1)
        (.thrown isErr msg)).1.submitError ≠ none) ∧
    (handleOpen (submitFinish (handleClose (submitStart s).1)
      (.httpError m)).1).isOpen = true ∧
    (handleOpen (submitFinish (handleClose (submitStart s).1)
      (.httpError m)).1).submitError =
      some (messageOrFallback m "Failed to create customer") := by
  refine ⟨rfl, rfl, rfl, rfl, ?_, rfl, rfl⟩
  intro isErr msg
  simp [submitFinish]

theorem C10_stale_submit_error_witness :
    (submitFinish (handleClose (submitStart validState).1)
        (.httpError (some "Email already exists"))).1.submitError =
      some "Email already exists" ∧
    (handleOpen (submitFinish (handleClose (submitStart validState).1)
      (.httpError (some "Email already exists"))).1).isOpen = true :=
  ⟨(C10_stale_submit_error validState (some "Email already exists")
      (by decide)).2.2.2.1,
   (C10_stale_submit_error validState (some "Email already exists")
      (by decide)).2.2.2.2.2.1⟩

end CustomerPage
